import Mathlib

/-!
Verification development for the supply-chain dashboard backend
(`backend/generate_data.py` and `backend/main.py`).

Dates are modelled as day ordinals (`ℕ`); `pd.Timestamp` arithmetic
`date + timedelta(days = n)` becomes `date + n`.  Quantities are `ℤ`
(`int(...)` in the Python source), floating-point intermediates
(allocations, normal variates) are modelled as exact rationals `ℚ`.
Randomness is modelled by explicit draw parameters covering the support
of each distribution used by the generator.  The numeric part of a
`po_id` string `"PO{n}"` is modelled as the counter value `n : ℕ`
(the map `n ↦ "PO" ++ toString n` is injective, so identity and
monotonicity of ids are preserved).
-/

/-- Python `int(q)` on a real value: truncation toward zero. -/
def pyInt (q : ℚ) : ℤ :=
  if 0 ≤ q then ⌊q⌋ else ⌈q⌉

/-- A supplier row of the supplier master (`generate_data.py`, `suppliers`). -/
structure Supplier where
  supplier_id : String
  supplier_name : String
  allocation : ℚ
  lead_time : ℕ
  deriving DecidableEq

/-- The random draws consumed while generating one purchase order:
`np.random.normal(1, 0.1)` (support: all reals, modelled as `ℚ`),
`np.random.choice([0,1,2,3,5], p=...)` and `np.random.randint(0, 5)`. -/
structure PODraws where
  normalMult : ℚ
  delayDays : ℕ
  shrinkage : ℕ
  deriving DecidableEq

/-- The support of `np.random.choice([0, 1, 2, 3, 5], p=[...])`. -/
abbrev validDelay (d : ℕ) : Prop := d = 0 ∨ d = 1 ∨ d = 2 ∨ d = 3 ∨ d = 5

/-- The support of `np.random.randint(0, 5)`: the draws `{0, 1, 2, 3, 4}`. -/
abbrev validShrinkage (s : ℕ) : Prop := s ≤ 4

/-- A purchase-order row (`generate_data.py`, purchase-order loop body). -/
structure PurchaseOrder where
  po_id : ℕ
  supplier_id : String
  order_date : ℕ
  planned_delivery_date : ℕ
  actual_delivery_date : ℕ
  ordered_quantity : ℤ
  received_quantity : ℤ
  delay_days : ℕ
  delay_flag : ℕ
  allocation_breach_flag : ℕ
  deriving DecidableEq

/-- Body of the purchase-order loop (`generate_data.py` lines 61-93) for one
`(date, supplier)` pair, given that date's demand and the random draws. -/
def mkPO (poId : ℕ) (date : ℕ) (sup : Supplier) (dailyDemand : ℕ)
    (dr : PODraws) : PurchaseOrder :=
  let allocated_qty : ℚ := (dailyDemand : ℚ) * sup.allocation
  let actual_order_qty : ℤ := pyInt (allocated_qty * dr.normalMult)
  { po_id := poId
    supplier_id := sup.supplier_id
    order_date := date
    planned_delivery_date := date + sup.lead_time
    actual_delivery_date := date + sup.lead_time + dr.delayDays
    ordered_quantity := actual_order_qty
    received_quantity := actual_order_qty - (dr.shrinkage : ℤ)
    delay_days := dr.delayDays
    delay_flag := if dr.delayDays > 0 then 1 else 0
    allocation_breach_flag := if (actual_order_qty : ℚ) > allocated_qty then 1 else 0 }

/-- Inner loop over suppliers for a fixed date: one order per supplier, in
supplier-master list order, the counter advancing by one per order.
Draws are indexed by the counter value, which identifies the position in
the RNG stream. -/
def genDatePOs (date : ℕ) (dailyDemand : ℕ) (draws : ℕ → PODraws)
    (counter : ℕ) : List Supplier → List PurchaseOrder
  | [] => []
  | s :: ss =>
      mkPO counter date s dailyDemand (draws counter) ::
        genDatePOs date dailyDemand draws (counter + 1) ss

/-- Outer loop over dates (date-major iteration), threading the po counter. -/
def genPOs (suppliers : List Supplier) (demand : ℕ → ℕ) (draws : ℕ → PODraws)
    (counter : ℕ) : List ℕ → List PurchaseOrder
  | [] => []
  | d :: ds =>
      genDatePOs d (demand d) draws counter suppliers ++
        genPOs suppliers demand draws (counter + suppliers.length) ds

/-- The full purchase-order table: `po_counter` starts at 1.  `demand` is the
demand series keyed by date (one `DemandRecord` per date). -/
def purchase_orders (dates : List ℕ) (suppliers : List Supplier)
    (demand : ℕ → ℕ) (draws : ℕ → PODraws) : List PurchaseOrder :=
  genPOs suppliers demand draws 1 dates

/-- An inventory-ledger row (`generate_data.py`, inventory loop body). -/
structure InventoryLedgerEntry where
  date : ℕ
  opening_stock : ℤ
  received_quantity : ℤ
  consumed_quantity : ℤ
  closing_stock : ℤ
  safety_stock_level : ℤ
  stockout_flag : ℕ
  deriving DecidableEq

/-- Pandas sum `purchase_orders.loc[purchase_orders["actual_delivery_date"] == date,
"received_quantity"].sum()`. -/
def receivedOn (pos : List PurchaseOrder) (date : ℕ) : ℤ :=
  ((pos.filter (fun p => p.actual_delivery_date == date)).map
    (·.received_quantity)).sum

/-- The inventory loop (`generate_data.py` lines 105-130): one entry per date
in order, the running `opening_stock` threaded through. -/
def ledgerAux (pos : List PurchaseOrder) (demand : ℕ → ℕ) (safety : ℤ)
    (opening : ℤ) : List ℕ → List InventoryLedgerEntry
  | [] => []
  | d :: ds =>
      let received_today := receivedOn pos d
      let consumed_today : ℤ := demand d
      let closing_stock := opening + received_today - consumed_today
      { date := d
        opening_stock := opening
        received_quantity := received_today
        consumed_quantity := consumed_today
        closing_stock := closing_stock
        safety_stock_level := safety
        stockout_flag := if closing_stock < safety then 1 else 0 } ::
        ledgerAux pos demand safety closing_stock ds

/-- The full inventory ledger: `opening_stock = 5000`, `safety_stock = 1000`. -/
def inventory_ledger (pos : List PurchaseOrder) (demand : ℕ → ℕ)
    (dates : List ℕ) : List InventoryLedgerEntry :=
  ledgerAux pos demand 1000 5000 dates

/-!  The serving layer (`main.py`)

Each endpoint is a pure function of the loaded tables (the handlers reload
the tables and then only read them).  Query parameters are `Option`s, as in
the FastAPI signatures.  -/

/-- Python `round(x, 2)` applied to the exact rational value: round to two decimal
places.  (Python rounds the nearest binary float half-to-even; no claim
proved here depends on tie behaviour, and the zero/empty branches under
verification never reach this function.) -/
def round2 (q : ℚ) : ℚ := (round (q * 100) : ℤ) / 100

/-- The helper `filter_po_data` (`main.py` lines 56-75): inclusive date-range filter on
`actual_delivery_date`, then optional supplier filter. -/
def filter_po_data (pos : List PurchaseOrder) (start_date end_date : Option ℕ)
    (supplier : Option String) : List PurchaseOrder :=
  let df := pos
  let df := match start_date with
    | some s => df.filter (fun p => s ≤ p.actual_delivery_date)
    | none => df
  let df := match end_date with
    | some e => df.filter (fun p => p.actual_delivery_date ≤ e)
    | none => df
  match supplier with
  | some sid => df.filter (fun p => p.supplier_id == sid)
  | none => df

/-- Endpoint `GET /kpi/on-time-delivery` (`main.py` lines 130-142). -/
def on_time_delivery (pos : List PurchaseOrder)
    (start_date end_date : Option ℕ) (supplier : Option String) : ℚ :=
  let df := filter_po_data pos start_date end_date supplier
  if df.length = 0 then 0
  else round2 (((df.countP (fun p => p.delay_flag == 0) : ℚ) / df.length) * 100)

/-- Endpoint `GET /kpi/avg-delay` (`main.py` lines 144-153). -/
def avg_delay (pos : List PurchaseOrder)
    (start_date end_date : Option ℕ) (supplier : Option String) : ℚ :=
  let df := filter_po_data pos start_date end_date supplier
  if df.length = 0 then 0
  else round2 (((df.map (fun p => (p.delay_days : ℚ))).sum) / df.length)

/-- Endpoint `GET /kpi/current-stock` (`main.py` lines 155-159): `inventory_df.iloc[-1]`
is the last stored row; `none` models the exception on an empty table. -/
def current_stock (inventory : List InventoryLedgerEntry) : Option ℤ :=
  inventory.getLast?.map (·.closing_stock)

/-- Endpoint `GET /kpi/supplier-performance` (`main.py` lines 161-171).  Groups the
filtered orders by `supplier_id`; group keys are listed in first-appearance
order (pandas emits them sorted; no claim proved here depends on the order
of the returned records). -/
def supplier_performance (pos : List PurchaseOrder)
    (start_date end_date : Option ℕ) : List (String × ℚ) :=
  let df := filter_po_data pos start_date end_date none
  if df.length = 0 then []
  else
    ((df.map (·.supplier_id)).dedup).map fun sid =>
      let g := df.filter (fun p => p.supplier_id == sid)
      (sid, round2 ((1 - ((g.map (fun p => (p.delay_flag : ℚ))).sum / g.length)) * 100))

/-- Endpoint `GET /kpi/allocation-compliance` (`main.py` lines 173-184). -/
def allocation_compliance (pos : List PurchaseOrder)
    (start_date end_date : Option ℕ) (supplier : Option String) : ℚ :=
  let df := filter_po_data pos start_date end_date supplier
  if df.length = 0 then 0
  else round2 (((df.countP (fun p => p.allocation_breach_flag == 0) : ℚ) / df.length) * 100)

/-- Endpoint `GET /kpi/supplier-allocation-compliance` (`main.py` lines 186-196). -/
def supplier_allocation_compliance (pos : List PurchaseOrder)
    (start_date end_date : Option ℕ) : List (String × ℚ) :=
  let df := filter_po_data pos start_date end_date none
  if df.length = 0 then []
  else
    ((df.map (·.supplier_id)).dedup).map fun sid =>
      let g := df.filter (fun p => p.supplier_id == sid)
      (sid, round2 ((1 - ((g.map (fun p => (p.allocation_breach_flag : ℚ))).sum / g.length)) * 100))

/-!  The allocation-breach alert endpoint (`main.py` lines 201-225)

The only cross-request mutable state is the module-level set `alerted_pos`
of already-alerted po ids; it is modelled as a `List ℕ` read and returned
explicitly.  `send_allocation_alert` opens an SMTP session and may raise;
the oracle `sendOk : ℕ → Bool` says, for each po id, whether that send
succeeds.  An exception propagates out of the handler (there is no
`try/except`), so the loop is modelled with an abort outcome. -/

/-- The observable outcome of one call to the alert endpoint. -/
structure AlertOutcome where
  /-- po ids for which `send_allocation_alert` was invoked, in loop order. -/
  attempted : List ℕ
  /-- po ids whose email send succeeded (appended to `emails_sent`). -/
  emailed : List ℕ
  /-- the module-level `alerted_pos` set after the call. -/
  alerted : List ℕ
  /-- true iff a send raised, aborting the handler. -/
  failed : Bool
  deriving DecidableEq

/-- The rows `breaches = df[df["received_quantity"] > df["ordered_quantity"]]` after
the `actual_delivery_date == target_date` filter (`main.py` lines 207-211). -/
def breachesOn (pos : List PurchaseOrder) (date : ℕ) : List PurchaseOrder :=
  (pos.filter (fun p => p.actual_delivery_date == date)).filter
    (fun p => p.ordered_quantity < p.received_quantity)

/-- The alert loop (`main.py` lines 215-219): skip already-alerted po ids;
otherwise send, then record the id (the record happens only after a
successful send, and a raise aborts the remaining iterations). -/
def runAlertLoop (sendOk : ℕ → Bool) :
    List PurchaseOrder → List ℕ → AlertOutcome
  | [], alerted => ⟨[], [], alerted, false⟩
  | row :: rest, alerted =>
      if row.po_id ∈ alerted then runAlertLoop sendOk rest alerted
      else if sendOk row.po_id then
        let o := runAlertLoop sendOk rest (row.po_id :: alerted)
        ⟨row.po_id :: o.attempted, row.po_id :: o.emailed, o.alerted, o.failed⟩
      else ⟨[row.po_id], [], alerted, true⟩

/-- The JSON body returned by `GET /alerts/allocation-breach`. -/
structure AlertResponse where
  date_checked : ℕ
  breaches_detected : ℕ
  emails_sent_for_po_ids : List ℕ
  deriving DecidableEq

/-- Endpoint `GET /alerts/allocation-breach` (`main.py` lines 201-225): the outcome
plus the response body (`none` when a send raised and the handler
propagated the exception instead of returning). -/
def allocation_breach_alerts (sendOk : ℕ → Bool) (pos : List PurchaseOrder)
    (date : ℕ) (alerted : List ℕ) : AlertOutcome × Option AlertResponse :=
  let breaches := breachesOn pos date
  let o := runAlertLoop sendOk breaches alerted
  (o, if o.failed then none
      else some ⟨date, breaches.length, o.emailed⟩)

/-!  Concrete inputs used to instantiate the theorems below (witnesses and
counterexamples).  The suppliers mirror two rows of the supplier master;
the draw streams are constant functions whose values lie in the support
of the corresponding distributions.  -/

/-- A sole supplier holding the full allocation (the allocations across all
suppliers sum to 1.0). -/
def wSupFull : Supplier := ⟨"S1", "Alpha Metals", 1, 5⟩

/-- Another supplier, for two-supplier instances. -/
def wSup2 : Supplier := ⟨"S2", "Beta Alloys", 1, 7⟩

/-- A constant demand series. -/
def wDemand : ℕ → ℕ := fun _ => 300

/-- A benign draw stream: multiplier 1, no delay, shrinkage 1. -/
def wDraws : ℕ → PODraws := fun _ => ⟨1, 0, 1⟩

/-- A draw stream in which the normal variate came out 0 (the normal
distribution has full real support) and the shrinkage draw is 3. -/
def wDrawsNeg : ℕ → PODraws := fun _ => ⟨0, 0, 3⟩

/-- The purchase order generated from `wSupFull` on day 0 with `wDraws`. -/
def wPO : PurchaseOrder := mkPO 1 0 wSupFull (wDemand 0) (wDraws 1)

/-- A purchase-order row with `received_quantity > ordered_quantity`
(a breach row for the alert endpoint), delivered on day 10. -/
def alertRow (n : ℕ) : PurchaseOrder :=
  ⟨n, "S1", 0, 5, 10, 5, 9, 5, 1, 0⟩

/-- A send oracle that fails exactly for po id 1. -/
def failFirstSend : ℕ → Bool := fun n => n != 1

/-- The ledger row for day 0 of a two-day ledger. -/
def ledgerRowEarly : InventoryLedgerEntry := ⟨0, 5000, 0, 300, 4700, 1000, 0⟩

/-- The ledger row for day 1 of a two-day ledger. -/
def ledgerRowLate : InventoryLedgerEntry := ⟨1, 4700, 0, 300, 4400, 1000, 0⟩

/-!  Lemmas about the purchase-order generator.  -/

theorem mem_genDatePOs {date dd : ℕ} {draws : ℕ → PODraws} {po : PurchaseOrder} :
    ∀ {sups : List Supplier} {c : ℕ}, po ∈ genDatePOs date dd draws c sups →
      ∃ s ∈ sups, ∃ k, po = mkPO k date s dd (draws k)
  | [], _, h => by simp [genDatePOs] at h
  | s :: ss, c, h => by
      rcases List.mem_cons.mp h with h | h
      · exact ⟨s, List.mem_cons_self s ss, c, h⟩
      · obtain ⟨s', hs', k, hk⟩ := mem_genDatePOs h
        exact ⟨s', List.mem_cons_of_mem s hs', k, hk⟩

theorem mem_genPOs {sups : List Supplier} {demand : ℕ → ℕ} {draws : ℕ → PODraws}
    {po : PurchaseOrder} :
    ∀ {dates : List ℕ} {c : ℕ}, po ∈ genPOs sups demand draws c dates →
      ∃ d ∈ dates, ∃ s ∈ sups, ∃ k, po = mkPO k d s (demand d) (draws k)
  | [], _, h => by simp [genPOs] at h
  | d :: ds, c, h => by
      rcases List.mem_append.mp h with h | h
      · obtain ⟨s, hs, k, hk⟩ := mem_genDatePOs h
        exact ⟨d, List.mem_cons_self d ds, s, hs, k, hk⟩
      · obtain ⟨d', hd', rest⟩ := mem_genPOs h
        exact ⟨d', List.mem_cons_of_mem d hd', rest⟩

theorem mem_purchase_orders {dates : List ℕ} {sups : List Supplier}
    {demand : ℕ → ℕ} {draws : ℕ → PODraws} {po : PurchaseOrder}
    (h : po ∈ purchase_orders dates sups demand draws) :
    ∃ d ∈ dates, ∃ s ∈ sups, ∃ k, po = mkPO k d s (demand d) (draws k) :=
  mem_genPOs h

theorem mkPO_received_le_ordered (k d : ℕ) (s : Supplier) (dd : ℕ) (dr : PODraws) :
    (mkPO k d s dd dr).received_quantity ≤ (mkPO k d s dd dr).ordered_quantity := by
  simp only [mkPO]
  omega

theorem purchase_orders_received_le_ordered (dates : List ℕ) (sups : List Supplier)
    (demand : ℕ → ℕ) (draws : ℕ → PODraws) :
    ∀ po ∈ purchase_orders dates sups demand draws,
      po.received_quantity ≤ po.ordered_quantity := by
  intro po hpo
  obtain ⟨d, _, s, _, k, rfl⟩ := mem_purchase_orders hpo
  exact mkPO_received_le_ordered k d s (demand d) (draws k)

/-- Claim C3, corrected.  Every generated purchase order has
`received_quantity = ordered_quantity - shrinkage` with the shrinkage drawn
from `{0,1,2,3,4}`, hence `received_quantity ≤ ordered_quantity`; but the
source applies no clamp at 0, so `received_quantity` is not guaranteed to be
non-negative (see the counterexample `received_quantity_can_be_negative`). -/
theorem received_eq_ordered_sub_shrinkage (dates : List ℕ) (sups : List Supplier)
    (demand : ℕ → ℕ) (draws : ℕ → PODraws)
    (hs : ∀ k, validShrinkage (draws k).shrinkage) :
    ∀ po ∈ purchase_orders dates sups demand draws,
      (∃ s : ℕ, s ≤ 4 ∧ po.received_quantity = po.ordered_quantity - (s : ℤ)) ∧
        po.received_quantity ≤ po.ordered_quantity := by
  intro po hpo
  refine ⟨?_, purchase_orders_received_le_ordered dates sups demand draws po hpo⟩
  obtain ⟨d, _, s, _, k, rfl⟩ := mem_purchase_orders hpo
  exact ⟨(draws k).shrinkage, hs k, rfl⟩

/-- Witness for `received_eq_ordered_sub_shrinkage` at a concrete run. -/
theorem received_eq_ordered_sub_shrinkage_witness :
    (∃ s : ℕ, s ≤ 4 ∧ wPO.received_quantity = wPO.ordered_quantity - (s : ℤ)) ∧
      wPO.received_quantity ≤ wPO.ordered_quantity :=
  received_eq_ordered_sub_shrinkage [0] [wSupFull] wDemand wDraws
    (fun _ => by show (1 : ℕ) ≤ 4; decide) wPO
    (by simp [wPO, purchase_orders, genPOs, genDatePOs])

/-- Counterexample to claim C3 as stated: the generator has no clamp at 0,
so a run in which the normal variate came out 0 and the shrinkage draw is 3
(both in the support of their distributions) yields
`received_quantity = -3 < 0`. -/
theorem received_quantity_can_be_negative :
    (purchase_orders [0] [wSupFull] wDemand wDrawsNeg).map
        PurchaseOrder.received_quantity = [(-3 : ℤ)] ∧
      validShrinkage (wDrawsNeg 1).shrinkage ∧ validDelay (wDrawsNeg 1).delayDays ∧
      ¬ (0 : ℤ) ≤ -3 := by
  refine ⟨?_, by decide, by decide, by decide⟩
  norm_num [purchase_orders, genPOs, genDatePOs, mkPO, pyInt, wDemand,
    wSupFull, wDrawsNeg]

/-- Claim C4.  For every generated purchase order, `delay_flag` is set exactly
when `delay_days > 0`, and `allocation_breach_flag` is set exactly when
`ordered_quantity` exceeds the real-valued allocated quantity
`allocation * daily_demand` of the order's supplier and date. -/
theorem po_flags_derived (dates : List ℕ) (sups : List Supplier)
    (demand : ℕ → ℕ) (draws : ℕ → PODraws) :
    ∀ po ∈ purchase_orders dates sups demand draws,
      (po.delay_flag = 1 ↔ 0 < po.delay_days) ∧
        ∃ s ∈ sups, po.supplier_id = s.supplier_id ∧
          (po.allocation_breach_flag = 1 ↔
            s.allocation * (demand po.order_date : ℚ) < (po.ordered_quantity : ℚ)) := by
  intro po hpo
  obtain ⟨d, _, s, hs, k, rfl⟩ := mem_purchase_orders hpo
  constructor
  · simp only [mkPO]
    split <;> simp_all
  · refine ⟨s, hs, rfl, ?_⟩
    have hcomm : s.allocation * (demand d : ℚ) = (demand d : ℚ) * s.allocation :=
      mul_comm _ _
    simp only [mkPO, hcomm]
    split_ifs with h <;> simp [h]

/-- Witness for `po_flags_derived` at a concrete run. -/
theorem po_flags_derived_witness :
    (wPO.delay_flag = 1 ↔ 0 < wPO.delay_days) ∧
      ∃ s ∈ [wSupFull], wPO.supplier_id = s.supplier_id ∧
        (wPO.allocation_breach_flag = 1 ↔
          s.allocation * (wDemand wPO.order_date : ℚ) < (wPO.ordered_quantity : ℚ)) :=
  po_flags_derived [0] [wSupFull] wDemand wDraws wPO
    (by simp [wPO, purchase_orders, genPOs, genDatePOs])

/-- Claim C10.  Over any table produced by this system's own generator,
the breach condition of the alert endpoint (`received_quantity >
ordered_quantity`) never holds, so for every queried date the endpoint
detects zero breaches, sends no email, leaves the alerted set unchanged,
and returns an empty `emails_sent_for_po_ids` list. -/
theorem no_breach_alerts_for_generated_data (dates : List ℕ) (sups : List Supplier)
    (demand : ℕ → ℕ) (draws : ℕ → PODraws) (date : ℕ) (alerted : List ℕ)
    (sendOk : ℕ → Bool) :
    allocation_breach_alerts sendOk (purchase_orders dates sups demand draws)
        date alerted = (⟨[], [], alerted, false⟩, some ⟨date, 0, []⟩) := by
  have hb : breachesOn (purchase_orders dates sups demand draws) date = [] := by
    apply List.filter_eq_nil_iff.mpr
    intro p hp
    have hle := purchase_orders_received_le_ordered dates sups demand draws p
      (List.mem_filter.mp hp).1
    simp only [decide_eq_true_eq]
    omega
  simp [allocation_breach_alerts, hb, runAlertLoop]

/-!  Lemmas about the inventory-ledger builder.  -/

theorem ledgerAux_map_date (pos : List PurchaseOrder) (demand : ℕ → ℕ) (safety : ℤ) :
    ∀ (dates : List ℕ) (opening : ℤ),
      (ledgerAux pos demand safety opening dates).map (·.date) = dates
  | [], _ => rfl
  | d :: ds, opening => by
      simp only [ledgerAux, List.map_cons, List.cons.injEq, true_and]
      exact ledgerAux_map_date pos demand safety ds _

theorem ledgerAux_head_opening (pos : List PurchaseOrder) (demand : ℕ → ℕ)
    (safety : ℤ) :
    ∀ (dates : List ℕ) (opening : ℤ) (e : InventoryLedgerEntry),
      (ledgerAux pos demand safety opening dates)[0]? = some e →
        e.opening_stock = opening
  | [], _, e => by simp [ledgerAux]
  | d :: ds, opening, e => by
      simp only [ledgerAux, List.getElem?_cons_zero, Option.some.injEq]
      rintro rfl
      rfl

theorem ledgerAux_chain (pos : List PurchaseOrder) (demand : ℕ → ℕ) (safety : ℤ) :
    ∀ (dates : List ℕ) (opening : ℤ) (n : ℕ) (e1 e2 : InventoryLedgerEntry),
      (ledgerAux pos demand safety opening dates)[n]? = some e1 →
        (ledgerAux pos demand safety opening dates)[n + 1]? = some e2 →
          e2.opening_stock = e1.closing_stock
  | [], _, n, e1, e2 => by simp [ledgerAux]
  | d :: ds, opening, 0, e1, e2 => by
      simp only [ledgerAux, List.getElem?_cons_zero, List.getElem?_cons_succ,
        Option.some.injEq]
      rintro rfl h2
      exact ledgerAux_head_opening pos demand safety ds _ e2 h2
  | d :: ds, opening, n + 1, e1, e2 => by
      simp only [ledgerAux, List.getElem?_cons_succ]
      exact ledgerAux_chain pos demand safety ds _ n e1 e2

theorem ledgerAux_mem (pos : List PurchaseOrder) (demand : ℕ → ℕ) (safety : ℤ) :
    ∀ (dates : List ℕ) (opening : ℤ) (e : InventoryLedgerEntry),
      e ∈ ledgerAux pos demand safety opening dates →
        e.received_quantity = receivedOn pos e.date ∧
          e.consumed_quantity = (demand e.date : ℤ) ∧
          e.closing_stock = e.opening_stock + e.received_quantity - e.consumed_quantity ∧
          e.safety_stock_level = safety ∧
          (e.stockout_flag = 1 ↔ e.closing_stock < safety)
  | [], _, e => by simp [ledgerAux]
  | d :: ds, opening, e => by
      intro h
      rcases List.mem_cons.mp h with h | h
      · subst h
        refine ⟨rfl, rfl, rfl, rfl, ?_⟩
        dsimp only
        split_ifs with hlt <;> simp [hlt]
      · exact ledgerAux_mem pos demand safety ds _ e h

/-- Claim C1.  The ledger is a single chain built over the date sequence in
order, starting from the fixed initial opening stock 5000: the entry dates
are exactly the input dates in order, the first entry opens at 5000, and
every entry after the first opens at the previous entry's closing stock. -/
theorem ledger_chained_from_initial_opening (pos : List PurchaseOrder)
    (demand : ℕ → ℕ) (dates : List ℕ) :
    ((inventory_ledger pos demand dates).map (·.date) = dates) ∧
      (∀ e, (inventory_ledger pos demand dates)[0]? = some e →
        e.opening_stock = 5000) ∧
      (∀ n e1 e2, (inventory_ledger pos demand dates)[n]? = some e1 →
        (inventory_ledger pos demand dates)[n + 1]? = some e2 →
          e2.opening_stock = e1.closing_stock) :=
  ⟨ledgerAux_map_date pos demand 1000 dates 5000,
   fun e h => ledgerAux_head_opening pos demand 1000 dates 5000 e h,
   fun n e1 e2 h1 h2 => ledgerAux_chain pos demand 1000 dates 5000 n e1 e2 h1 h2⟩

/-- Witness for `ledger_chained_from_initial_opening` on a concrete two-day
ledger with no deliveries and constant demand 300. -/
theorem ledger_chained_witness :
    ledgerRowLate.opening_stock = ledgerRowEarly.closing_stock ∧
      ledgerRowEarly.opening_stock = 5000 :=
  ⟨(ledger_chained_from_initial_opening [] wDemand [0, 1]).2.2 0
      ledgerRowEarly ledgerRowLate (by decide) (by decide),
   (ledger_chained_from_initial_opening [] wDemand [0, 1]).2.1
      ledgerRowEarly (by decide)⟩

/-- Claim C2.  The ledger has exactly one entry per date of the horizon, and
each entry's `received_quantity` sums `received_quantity` over the purchase
orders delivered that date, its `consumed_quantity` is that date's demand,
its `closing_stock` is `opening_stock + received_quantity -
consumed_quantity`, its safety level is the constant 1000, and its
`stockout_flag` is set exactly when `closing_stock < 1000`. -/
theorem ledger_entry_fields_per_date (pos : List PurchaseOrder)
    (demand : ℕ → ℕ) (dates : List ℕ) (hnd : dates.Nodup) :
    ((inventory_ledger pos demand dates).map (·.date) = dates) ∧
      (∀ d ∈ dates,
        (inventory_ledger pos demand dates).countP (fun e => e.date == d) = 1) ∧
      (∀ e ∈ inventory_ledger pos demand dates,
        e.received_quantity = receivedOn pos e.date ∧
          e.consumed_quantity = (demand e.date : ℤ) ∧
          e.closing_stock = e.opening_stock + e.received_quantity - e.consumed_quantity ∧
          e.safety_stock_level = 1000 ∧
          (e.stockout_flag = 1 ↔ e.closing_stock < 1000)) := by
  refine ⟨ledgerAux_map_date pos demand 1000 dates 5000, ?_, ?_⟩
  · intro d hd
    have hmap : (inventory_ledger pos demand dates).map (·.date) = dates :=
      ledgerAux_map_date pos demand 1000 dates 5000
    have : ((inventory_ledger pos demand dates).map (·.date)).countP
        (fun x => x == d) = 1 := by
      rw [hmap, ← List.count_eq_countP]
      exact List.count_eq_one_of_mem hnd hd
    rw [List.countP_map] at this
    exact this
  · intro e he
    exact ledgerAux_mem pos demand 1000 dates 5000 e he

/-- Witness for `ledger_entry_fields_per_date` on a concrete two-day ledger. -/
theorem ledger_entry_fields_witness :
    (inventory_ledger [] wDemand [0, 1]).countP (fun e => e.date == 0) = 1 ∧
      ledgerRowEarly.closing_stock =
        ledgerRowEarly.opening_stock + ledgerRowEarly.received_quantity -
          ledgerRowEarly.consumed_quantity :=
  ⟨(ledger_entry_fields_per_date [] wDemand [0, 1] (by decide)).2.1 0 (by decide),
   ((ledger_entry_fields_per_date [] wDemand [0, 1] (by decide)).2.2
      ledgerRowEarly (by decide)).2.2.1⟩

/-!  Shape of the generated purchase-order table.  -/

theorem genDatePOs_length (date dd : ℕ) (draws : ℕ → PODraws) :
    ∀ (sups : List Supplier) (c : ℕ),
      (genDatePOs date dd draws c sups).length = sups.length
  | [], _ => rfl
  | s :: ss, c => by
      simp only [genDatePOs, List.length_cons,
        genDatePOs_length date dd draws ss (c + 1)]

theorem genPOs_length (sups : List Supplier) (demand : ℕ → ℕ)
    (draws : ℕ → PODraws) :
    ∀ (dates : List ℕ) (c : ℕ),
      (genPOs sups demand draws c dates).length = dates.length * sups.length
  | [], _ => by simp [genPOs]
  | d :: ds, c => by
      simp only [genPOs, List.length_append, genDatePOs_length,
        genPOs_length sups demand draws ds _, List.length_cons]
      ring

theorem genDatePOs_getElem (date dd : ℕ) (draws : ℕ → PODraws) :
    ∀ (sups : List Supplier) (c j : ℕ),
      (genDatePOs date dd draws c sups)[j]? =
        (sups[j]?).map (fun s => mkPO (c + j) date s dd (draws (c + j)))
  | [], c, j => by simp [genDatePOs]
  | s :: ss, c, 0 => by simp [genDatePOs]
  | s :: ss, c, j + 1 => by
      simp only [genDatePOs, List.getElem?_cons_succ]
      rw [genDatePOs_getElem date dd draws ss (c + 1) j]
      have harith : c + 1 + j = c + (j + 1) := by omega
      rw [harith]

theorem genPOs_getElem_poid (sups : List Supplier) (demand : ℕ → ℕ)
    (draws : ℕ → PODraws) :
    ∀ (dates : List ℕ) (c k : ℕ), k < dates.length * sups.length →
      ((genPOs sups demand draws c dates)[k]?).map (·.po_id) = some (c + k)
  | [], c, k, hk => by simp at hk
  | d :: ds, c, k, hk => by
      have hlen : (genDatePOs d (demand d) draws c sups).length = sups.length :=
        genDatePOs_length d (demand d) draws sups c
      by_cases h : k < sups.length
      · simp only [genPOs]
        rw [List.getElem?_append_left (by rw [hlen]; exact h),
          genDatePOs_getElem, List.getElem?_eq_getElem h]
        simp [mkPO]
      · push_neg at h
        simp only [genPOs]
        rw [List.getElem?_append_right (by rw [hlen]; exact h), hlen]
        rw [List.length_cons, Nat.succ_mul] at hk
        have hk' : k - sups.length < ds.length * sups.length := by omega
        rw [genPOs_getElem_poid sups demand draws ds (c + sups.length)
          (k - sups.length) hk']
        congr 1
        omega

theorem genPOs_getElem_pair (sups : List Supplier) (demand : ℕ → ℕ)
    (draws : ℕ → PODraws) :
    ∀ (dates : List ℕ) (c i j : ℕ), j < sups.length →
      (genPOs sups demand draws c dates)[i * sups.length + j]? =
        (dates[i]?).bind (fun d => (sups[j]?).map (fun s =>
          mkPO (c + i * sups.length + j) d s (demand d)
            (draws (c + i * sups.length + j))))
  | [], c, i, j, hj => by simp [genPOs]
  | d :: ds, c, 0, j, hj => by
      have hlen : (genDatePOs d (demand d) draws c sups).length = sups.length :=
        genDatePOs_length d (demand d) draws sups c
      simp only [genPOs, Nat.zero_mul, Nat.zero_add, Nat.add_zero,
        List.getElem?_cons_zero, Option.some_bind]
      rw [List.getElem?_append_left (by rw [hlen]; exact hj), genDatePOs_getElem]
  | d :: ds, c, i + 1, j, hj => by
      have hlen : (genDatePOs d (demand d) draws c sups).length = sups.length :=
        genDatePOs_length d (demand d) draws sups c
      have hge : sups.length ≤ (i + 1) * sups.length + j := by
        rw [Nat.succ_mul]; omega
      simp only [genPOs, List.getElem?_cons_succ]
      rw [List.getElem?_append_right (by rw [hlen]; exact hge), hlen]
      have hidx : (i + 1) * sups.length + j - sups.length =
          i * sups.length + j := by
        rw [Nat.succ_mul]; omega
      rw [hidx,
        genPOs_getElem_pair sups demand draws ds (c + sups.length) i j hj]
      have harith : c + sups.length + i * sups.length + j =
          c + (i + 1) * sups.length + j := by
        rw [Nat.succ_mul]; omega
      rw [harith]

theorem genDatePOs_countP (date dd : ℕ) (draws : ℕ → PODraws) (d0 : ℕ)
    (sid : String) :
    ∀ (sups : List Supplier) (c : ℕ),
      (genDatePOs date dd draws c sups).countP
          (fun p => p.order_date == d0 && p.supplier_id == sid) =
        if date = d0 then sups.countP (fun s => s.supplier_id == sid) else 0
  | [], c => by simp [genDatePOs]
  | s :: ss, c => by
      simp only [genDatePOs, List.countP_cons,
        genDatePOs_countP date dd draws d0 sid ss (c + 1)]
      by_cases hd : date = d0 <;> by_cases hs : s.supplier_id = sid <;>
        simp [mkPO, hd, hs]

theorem genPOs_countP (sups : List Supplier) (demand : ℕ → ℕ)
    (draws : ℕ → PODraws) (d0 : ℕ) (sid : String) :
    ∀ (dates : List ℕ) (c : ℕ),
      (genPOs sups demand draws c dates).countP
          (fun p => p.order_date == d0 && p.supplier_id == sid) =
        (dates.countP (fun x => x == d0)) *
          (sups.countP (fun s => s.supplier_id == sid))
  | [], c => by simp [genPOs]
  | d :: ds, c => by
      simp only [genPOs, List.countP_append, genDatePOs_countP,
        genPOs_countP sups demand draws d0 sid ds _, List.countP_cons]
      by_cases hd : d = d0
      · simp [hd]; ring
      · simp [hd]

/-- Claim C5.  The synthesizer produces exactly one purchase order per
`(date, supplier)` pair: the table has `|dates| * |suppliers|` rows; the
`po_id`s come from a single counter starting at 1 and increasing by one in
iteration order; row `i * |suppliers| + j` is the order of date `i` and
supplier `j` (date-major, suppliers in master-list order), built with
`planned_delivery_date = order_date + lead_time_days`; and for distinct
dates and distinct supplier ids each `(date, supplier)` pair occurs on
exactly one row. -/
theorem one_po_per_date_supplier (dates : List ℕ) (sups : List Supplier)
    (demand : ℕ → ℕ) (draws : ℕ → PODraws)
    (hd : dates.Nodup) (hsid : (sups.map (·.supplier_id)).Nodup) :
    (purchase_orders dates sups demand draws).length =
        dates.length * sups.length ∧
      (∀ k, k < dates.length * sups.length →
        ((purchase_orders dates sups demand draws)[k]?).map (·.po_id) =
          some (1 + k)) ∧
      (∀ i j, j < sups.length →
        (purchase_orders dates sups demand draws)[i * sups.length + j]? =
          (dates[i]?).bind (fun d => (sups[j]?).map (fun s =>
            mkPO (1 + i * sups.length + j) d s (demand d)
              (draws (1 + i * sups.length + j))))) ∧
      (∀ d ∈ dates, ∀ s ∈ sups,
        (purchase_orders dates sups demand draws).countP
          (fun p => p.order_date == d && p.supplier_id == s.supplier_id) = 1) ∧
      (∀ po ∈ purchase_orders dates sups demand draws,
        ∃ s ∈ sups, po.supplier_id = s.supplier_id ∧
          po.planned_delivery_date = po.order_date + s.lead_time) := by
  refine ⟨genPOs_length sups demand draws dates 1,
    fun k hk => genPOs_getElem_poid sups demand draws dates 1 k hk,
    fun i j hj => genPOs_getElem_pair sups demand draws dates 1 i j hj,
    ?_, ?_⟩
  · intro d hdm s hsm
    have hcount := genPOs_countP sups demand draws d s.supplier_id dates 1
    have h1 : dates.countP (fun x => x == d) = 1 := by
      rw [← List.count_eq_countP]
      exact List.count_eq_one_of_mem hd hdm
    have h2 : sups.countP (fun x => x.supplier_id == s.supplier_id) = 1 := by
      have hm := List.countP_map (fun x => x == s.supplier_id)
        (fun x : Supplier => x.supplier_id) sups
      rw [← List.count_eq_countP] at hm
      rw [List.count_eq_one_of_mem hsid
        (List.mem_map_of_mem (fun x : Supplier => x.supplier_id) hsm)] at hm
      exact hm.symm
    rw [purchase_orders] at *
    rw [hcount, h1, h2]
  · intro po hpo
    obtain ⟨d, _, s, hs, k, rfl⟩ := mem_purchase_orders hpo
    exact ⟨s, hs, rfl, rfl⟩

/-- Witness for `one_po_per_date_supplier` on a concrete two-day,
two-supplier run. -/
theorem one_po_per_date_supplier_witness :
    (purchase_orders [0, 1] [wSupFull, wSup2] wDemand wDraws).length = 4 ∧
      ((purchase_orders [0, 1] [wSupFull, wSup2] wDemand wDraws)[2]?).map
        (·.po_id) = some 3 ∧
      (purchase_orders [0, 1] [wSupFull, wSup2] wDemand wDraws).countP
        (fun p => p.order_date == 1 && p.supplier_id == wSup2.supplier_id) = 1 := by
  have h := one_po_per_date_supplier [0, 1] [wSupFull, wSup2] wDemand wDraws
    (by decide) (by decide)
  exact ⟨h.1, h.2.1 2 (by decide),
    h.2.2.2.1 1 (by decide) wSup2 (by simp)⟩

/-!  The current-stock endpoint.  -/

theorem getLast_date_max (e : InventoryLedgerEntry) :
    ∀ (inv : List InventoryLedgerEntry),
      inv.Pairwise (fun a b => a.date ≤ b.date) → inv.getLast? = some e →
        ∀ x ∈ inv, x.date ≤ e.date
  | [] => by intro _ h; simp at h
  | [a] => by
      intro _ h x hx
      rw [List.getLast?_singleton] at h
      obtain rfl : a = e := by injection h
      rcases List.mem_singleton.mp hx with rfl
      exact le_refl _
  | a :: b :: l => by
      intro hp h x hx
      rw [List.getLast?_cons_cons] at h
      rcases List.mem_cons.mp hx with rfl | hx'
      · exact (List.pairwise_cons.mp hp).1 e (List.mem_of_mem_getLast? h)
      · exact getLast_date_max e (b :: l) (List.pairwise_cons.mp hp).2 h x hx'

/-- Claim C6, corrected.  `GET /kpi/current-stock` returns the
`closing_stock` of the *last stored* ledger row (`iloc[-1]`), not of the
row with the latest date: the two coincide exactly when the stored rows are
in nondecreasing date order, as the generator writes them (see the
counterexample `current_stock_ignores_date_order` for an out-of-order
table). -/
theorem current_stock_last_row_of_sorted (inv : List InventoryLedgerEntry)
    (e : InventoryLedgerEntry)
    (hsort : inv.Pairwise (fun a b => a.date ≤ b.date))
    (hlast : inv.getLast? = some e) :
    current_stock inv = some e.closing_stock ∧ ∀ x ∈ inv, x.date ≤ e.date :=
  ⟨by simp [current_stock, hlast], getLast_date_max e inv hsort hlast⟩

/-- Witness for `current_stock_last_row_of_sorted` on a date-sorted
two-row table. -/
theorem current_stock_last_row_witness :
    current_stock [ledgerRowEarly, ledgerRowLate] =
        some ledgerRowLate.closing_stock ∧
      ∀ x ∈ [ledgerRowEarly, ledgerRowLate], x.date ≤ ledgerRowLate.date :=
  current_stock_last_row_of_sorted [ledgerRowEarly, ledgerRowLate]
    ledgerRowLate (by decide) (by decide)

/-- Counterexample to claim C6 as stated: store the two ledger rows with the
later date first.  The endpoint returns the early row's closing stock
(4700), which is not the closing stock (4400) of the chronologically last
row, so the result does depend on the storage order. -/
theorem current_stock_ignores_date_order :
    current_stock [ledgerRowLate, ledgerRowEarly] =
        some ledgerRowEarly.closing_stock ∧
      ledgerRowEarly.date < ledgerRowLate.date ∧
      ledgerRowEarly.closing_stock ≠ ledgerRowLate.closing_stock := by
  refine ⟨by decide, by decide, by decide⟩

/-- Claim C7.  When the date-range/supplier filter selects zero purchase
orders, every KPI endpoint returns its defined zero result or the empty
list instead of dividing by zero. -/
theorem kpi_zero_on_empty_filter (pos : List PurchaseOrder)
    (sd ed : Option ℕ) (sup : Option String)
    (h : filter_po_data pos sd ed sup = [])
    (h0 : filter_po_data pos sd ed none = []) :
    on_time_delivery pos sd ed sup = 0 ∧
      avg_delay pos sd ed sup = 0 ∧
      allocation_compliance pos sd ed sup = 0 ∧
      supplier_performance pos sd ed = [] ∧
      supplier_allocation_compliance pos sd ed = [] := by
  refine ⟨?_, ?_, ?_, ?_, ?_⟩ <;>
    simp [on_time_delivery, avg_delay, allocation_compliance,
      supplier_performance, supplier_allocation_compliance, h, h0]

/-- Witness for `kpi_zero_on_empty_filter`: a one-row table queried with a
start date beyond the horizon. -/
theorem kpi_zero_on_empty_filter_witness :
    on_time_delivery [alertRow 1] (some 100) none none = 0 ∧
      supplier_performance [alertRow 1] (some 100) none = [] := by
  have h := kpi_zero_on_empty_filter [alertRow 1] (some 100) none none
    (by decide) (by decide)
  exact ⟨h.1, h.2.2.2.1⟩

/-!  The allocation-breach alert endpoint.  -/

theorem runAlertLoop_alerted_mono (sendOk : ℕ → Bool) :
    ∀ (rows : List PurchaseOrder) (alerted : List ℕ) (q : ℕ),
      q ∈ alerted → q ∈ (runAlertLoop sendOk rows alerted).alerted
  | [], _, _, h => h
  | row :: rest, alerted, q, h => by
      simp only [runAlertLoop]
      split_ifs with h1 h2
      · exact runAlertLoop_alerted_mono sendOk rest alerted q h
      · dsimp only
        exact runAlertLoop_alerted_mono sendOk rest (row.po_id :: alerted) q
          (List.mem_cons_of_mem _ h)
      · exact h

theorem runAlertLoop_mem_rows_alerted :
    ∀ (rows : List PurchaseOrder) (alerted : List ℕ) (r : PurchaseOrder),
      r ∈ rows → r.po_id ∈ (runAlertLoop (fun _ => true) rows alerted).alerted
  | [], _, r, h => by simp at h
  | row :: rest, alerted, r, h => by
      simp only [runAlertLoop]
      split_ifs with h1
      · rcases List.mem_cons.mp h with rfl | h'
        · exact runAlertLoop_alerted_mono _ rest alerted r.po_id h1
        · exact runAlertLoop_mem_rows_alerted rest alerted r h'
      · dsimp only
        rcases List.mem_cons.mp h with rfl | h'
        · exact runAlertLoop_alerted_mono _ rest _ r.po_id
            (List.mem_cons_self _ _)
        · exact runAlertLoop_mem_rows_alerted rest _ r h'

theorem runAlertLoop_of_all_alerted (sendOk : ℕ → Bool) :
    ∀ (rows : List PurchaseOrder) (alerted : List ℕ),
      (∀ r ∈ rows, r.po_id ∈ alerted) →
        runAlertLoop sendOk rows alerted = ⟨[], [], alerted, false⟩
  | [], _, _ => rfl
  | row :: rest, alerted, h => by
      simp only [runAlertLoop]
      rw [if_pos (h row (List.mem_cons_self row rest))]
      exact runAlertLoop_of_all_alerted sendOk rest alerted
        (fun r hr => h r (List.mem_cons_of_mem row hr))

/-- Claim C8.  With every email send succeeding, calling
`/alerts/allocation-breach` a second time with the same date sends no
further email: the second call attempts nothing, returns an empty
`emails_sent_for_po_ids`, and leaves the alerted set unchanged (at most one
email per po id per process lifetime). -/
theorem alerts_idempotent_second_call (pos : List PurchaseOrder) (date : ℕ)
    (alerted : List ℕ) :
    allocation_breach_alerts (fun _ => true) pos date
        ((allocation_breach_alerts (fun _ => true) pos date alerted).1.alerted) =
      (⟨[], [],
          (allocation_breach_alerts (fun _ => true) pos date alerted).1.alerted,
          false⟩,
        some ⟨date, (breachesOn pos date).length, []⟩) := by
  have hall : ∀ r ∈ breachesOn pos date,
      r.po_id ∈ (runAlertLoop (fun _ => true) (breachesOn pos date) alerted).alerted :=
    fun r hr => runAlertLoop_mem_rows_alerted (breachesOn pos date) alerted r hr
  simp only [allocation_breach_alerts]
  rw [runAlertLoop_of_all_alerted _ _ _ hall]
  rfl

theorem runAlertLoop_emailed_subset_alerted (sendOk : ℕ → Bool) :
    ∀ (rows : List PurchaseOrder) (alerted : List ℕ) (q : ℕ),
      q ∈ (runAlertLoop sendOk rows alerted).emailed →
        q ∈ (runAlertLoop sendOk rows alerted).alerted
  | [], _, q, h => by simp [runAlertLoop] at h
  | row :: rest, alerted, q, h => by
      simp only [runAlertLoop] at h ⊢
      split_ifs at h ⊢ with h1 h2
      · exact runAlertLoop_emailed_subset_alerted sendOk rest alerted q h
      · dsimp only at h ⊢
        rcases List.mem_cons.mp h with rfl | h'
        · exact runAlertLoop_alerted_mono sendOk rest _ _ (List.mem_cons_self _ _)
        · exact runAlertLoop_emailed_subset_alerted sendOk rest _ q h'
      · simp at h

theorem runAlertLoop_failed_decomp (sendOk : ℕ → Bool) :
    ∀ (rows : List PurchaseOrder) (alerted : List ℕ),
      (rows.map (·.po_id)).Nodup →
      (runAlertLoop sendOk rows alerted).failed = true →
      ∃ pre bad post, rows = pre ++ bad :: post ∧
        sendOk bad.po_id = false ∧
        bad.po_id ∉ (runAlertLoop sendOk rows alerted).alerted ∧
        (runAlertLoop sendOk rows alerted).attempted.getLast? = some bad.po_id ∧
        ∀ r ∈ post, r.po_id ∉ (runAlertLoop sendOk rows alerted).attempted
  | [], _, _, hf => by simp [runAlertLoop] at hf
  | row :: rest, alerted, hnd, hf => by
      have hrow : row.po_id ∉ rest.map (·.po_id) :=
        (List.nodup_cons.mp (by simpa using hnd)).1
      have hnd' : (rest.map (·.po_id)).Nodup :=
        (List.nodup_cons.mp (by simpa using hnd)).2
      simp only [runAlertLoop] at hf ⊢
      split_ifs at hf ⊢ with h1 h2
      · obtain ⟨pre, bad, post, heq, hbadok, hbadal, hlast, hpost⟩ :=
          runAlertLoop_failed_decomp sendOk rest alerted hnd' hf
        exact ⟨row :: pre, bad, post, by rw [List.cons_append, heq],
          hbadok, hbadal, hlast, hpost⟩
      · dsimp only at hf ⊢
        obtain ⟨pre, bad, post, heq, hbadok, hbadal, hlast, hpost⟩ :=
          runAlertLoop_failed_decomp sendOk rest (row.po_id :: alerted) hnd' hf
        refine ⟨row :: pre, bad, post, by rw [List.cons_append, heq],
          hbadok, hbadal, ?_, ?_⟩
        · cases hatt : (runAlertLoop sendOk rest (row.po_id :: alerted)).attempted with
          | nil => rw [hatt] at hlast; simp at hlast
          | cons a t =>
              rw [hatt] at hlast
              rw [List.getLast?_cons_cons]
              exact hlast
        · intro r hr hmem
          have hrrest : r ∈ rest := by
            rw [heq]; exact List.mem_append_right _ (List.mem_cons_of_mem _ hr)
          rcases List.mem_cons.mp hmem with heqid | hmem'
          · exact hrow (heqid ▸ List.mem_map_of_mem (fun p => p.po_id) hrrest)
          · exact hpost r hr hmem'
      · refine ⟨[], row, rest, rfl, by simpa using h2, h1, rfl, ?_⟩
        intro r hr hmem
        have : r.po_id = row.po_id := List.mem_singleton.mp hmem
        exact hrow (this ▸ List.mem_map_of_mem (fun p => p.po_id) hr)

/-- Claim C9, corrected.  The alert loop has no `try/except`: when a send
raises for one breach PO, the handler aborts.  Precisely, on a failed run
over breach rows with distinct po ids there are a prefix, a failing row and
a suffix such that the failing row's send is the one that failed, the
failing po id is *not* recorded as alerted (so a retry can re-attempt it),
the failed send is the last attempt of the call, and no breach row after
the failing one has its email attempted in that call; every po id that was
successfully emailed before the failure stays recorded in the alerted set,
the prior alerted set is preserved, and the handler returns no response
body (the exception propagates). -/
theorem alert_failure_aborts_batch (sendOk : ℕ → Bool)
    (pos : List PurchaseOrder) (date : ℕ) (alerted : List ℕ)
    (hnd : ((breachesOn pos date).map (·.po_id)).Nodup)
    (hf : (runAlertLoop sendOk (breachesOn pos date) alerted).failed = true) :
    (∃ pre bad post, breachesOn pos date = pre ++ bad :: post ∧
        sendOk bad.po_id = false ∧
        bad.po_id ∉ (runAlertLoop sendOk (breachesOn pos date) alerted).alerted ∧
        (runAlertLoop sendOk (breachesOn pos date) alerted).attempted.getLast? =
          some bad.po_id ∧
        ∀ r ∈ post,
          r.po_id ∉ (runAlertLoop sendOk (breachesOn pos date) alerted).attempted) ∧
      (∀ q ∈ (runAlertLoop sendOk (breachesOn pos date) alerted).emailed,
        q ∈ (runAlertLoop sendOk (breachesOn pos date) alerted).alerted) ∧
      (∀ q ∈ alerted,
        q ∈ (runAlertLoop sendOk (breachesOn pos date) alerted).alerted) ∧
      (allocation_breach_alerts sendOk pos date alerted).2 = none := by
  refine ⟨runAlertLoop_failed_decomp sendOk (breachesOn pos date) alerted hnd hf,
    fun q hq => runAlertLoop_emailed_subset_alerted sendOk _ _ q hq,
    fun q hq => runAlertLoop_alerted_mono sendOk _ _ q hq, ?_⟩
  simp only [allocation_breach_alerts]
  rw [if_pos hf]

/-- Witness for `alert_failure_aborts_batch`: two breach rows delivered on
day 10, the send for po id 1 fails. -/
theorem alert_failure_aborts_batch_witness :
    (∃ pre bad post,
        breachesOn [alertRow 1, alertRow 2] 10 = pre ++ bad :: post ∧
        failFirstSend bad.po_id = false ∧
        bad.po_id ∉
          (runAlertLoop failFirstSend (breachesOn [alertRow 1, alertRow 2] 10)
            []).alerted ∧
        (runAlertLoop failFirstSend (breachesOn [alertRow 1, alertRow 2] 10)
            []).attempted.getLast? = some bad.po_id ∧
        ∀ r ∈ post, r.po_id ∉
          (runAlertLoop failFirstSend (breachesOn [alertRow 1, alertRow 2] 10)
            []).attempted) ∧
      (∀ q ∈ (runAlertLoop failFirstSend (breachesOn [alertRow 1, alertRow 2] 10)
          []).emailed,
        q ∈ (runAlertLoop failFirstSend (breachesOn [alertRow 1, alertRow 2] 10)
          []).alerted) ∧
      (∀ q ∈ ([] : List ℕ),
        q ∈ (runAlertLoop failFirstSend (breachesOn [alertRow 1, alertRow 2] 10)
          []).alerted) ∧
      (allocation_breach_alerts failFirstSend [alertRow 1, alertRow 2] 10 []).2 =
        none :=
  alert_failure_aborts_batch failFirstSend [alertRow 1, alertRow 2] 10 []
    (by decide) (by decide)

/-- Counterexample to claim C9 as stated: po ids 1 and 2 are both breaches
of day 10 and the send for po id 2 would succeed, yet after the send for
po id 1 fails, po id 2 is never attempted (`attempted = [1]`), nothing is
recorded, and the handler produces no response — the failure does prevent
alerting the rest of the batch. -/
theorem alert_failure_blocks_rest_of_batch :
    (breachesOn [alertRow 1, alertRow 2] 10).map (·.po_id) = [1, 2] ∧
      failFirstSend 2 = true ∧
      (runAlertLoop failFirstSend (breachesOn [alertRow 1, alertRow 2] 10)
        []).attempted = [1] ∧
      (runAlertLoop failFirstSend (breachesOn [alertRow 1, alertRow 2] 10)
        []).emailed = [] ∧
      (allocation_breach_alerts failFirstSend [alertRow 1, alertRow 2] 10 []).2 =
        none := by
  decide
